import Mathlib

/-!
Verification of the interval-measurement firmware core of the gyroscope-ui
repository.  The C++ sources are shallowly embedded: machine integers are
modelled as `Nat` with explicit reduction modulo `2 ^ 32` where C unsigned
arithmetic wraps, C strings are `List Char`, and the `float` frequency values
of the Arduino-Gyroscope variant are modelled as rationals.  Hardware and
serial side effects are made explicit: a function that prints a value returns
it, and a function that stores into a buffer also returns the list of
positions it wrote.
-/

/-- Wraparound-safe unsigned 32-bit subtraction `a - b`, exactly as C computes
it for `unsigned long` / `uint32_t` operands (both reduced modulo `2 ^ 32`).
For `b ≤ a < 2 ^ 32` this is plain subtraction; when `a < b` the borrow wraps,
yielding the positive delta across a timer overflow. -/
def usub32 (a b : Nat) : Nat :=
  (a % 2 ^ 32 + (2 ^ 32 - b % 2 ^ 32)) % 2 ^ 32

namespace GmArduino

/-- `DEBOUNCE_TIME` from src/src/gm_arduino.cpp: debounce dead time in
microseconds used to filter noise. -/
def DEBOUNCE_TIME : Nat := 10

/-- The interrupt-pipeline state of src/src/gm_arduino.cpp: the globals
`lastPulseTime`, `firstPulseOccurred` and `currentDelta`.  `USE_BUFFER` is
`false` in the source, so the optional delta ring (`buffer`, `bufferIndex`,
`bufferFull`) is dead code and not part of the state. -/
structure GmState where
  lastPulseTime : Nat
  firstPulseOccurred : Bool
  currentDelta : Nat
deriving DecidableEq, Repr

/-- `handleInterrupt` from src/src/gm_arduino.cpp (lines 38-77), called with
the current `micros()` value.  After the first pulse it computes
`currentDelta = currentTime - lastPulseTime` in unsigned arithmetic; only a
delta strictly greater than `DEBOUNCE_TIME` updates `lastPulseTime`, a smaller
or equal delta clears `currentDelta` and leaves the baseline untouched.  The
first pulse only seeds `lastPulseTime` and clears `currentDelta`. -/
def handleInterrupt (currentTime : Nat) (s : GmState) : GmState :=
  if s.firstPulseOccurred then
    let currentDelta := usub32 currentTime s.lastPulseTime
    if DEBOUNCE_TIME < currentDelta then
      { s with currentDelta := currentDelta, lastPulseTime := currentTime }
    else
      { s with currentDelta := 0 }
  else
    { lastPulseTime := currentTime, firstPulseOccurred := true, currentDelta := 0 }

/-- `handleTimer` from src/src/gm_arduino.cpp (lines 314-331): the loop-side
consumer.  When `currentDelta` is nonzero it is read, cleared, and sent over
serial (`sendByteValue`); the emitted value is returned as `some`. -/
def handleTimer (s : GmState) : Option Nat × GmState :=
  if s.currentDelta ≠ 0 then
    (some s.currentDelta, { s with currentDelta := 0 })
  else
    (none, s)

/-- `sendByteValue` from src/src/gm_arduino.cpp (lines 79-87): the binary
frame written to the serial port, byte by byte, as a list.  `(value >> k) &
0xFF` on a `uint32_t` is `value / 2 ^ k % 256` for values below `2 ^ 32`. -/
def sendByteValue (value : Nat) : List Nat :=
  [0xAA,
   value % 256,
   value / 2 ^ 8 % 256,
   value / 2 ^ 16 % 256,
   value / 2 ^ 24 % 256,
   0x55]

end GmArduino

namespace MainCpp

/-- `debounceTime` from src/src/main.cpp. -/
def debounceTime : Nat := 10

/-- The interrupt-pipeline state of src/src/main.cpp: `lastPulseTime`,
`firstPulseOccurred`, `currentDelta`. -/
structure MainState where
  lastPulseTime : Nat
  firstPulseOccurred : Bool
  currentDelta : Nat
deriving DecidableEq, Repr

/-- `handleInterrupt` from src/src/main.cpp (lines 31-48).  Note that, unlike
the src/src/gm_arduino.cpp variant, this code assigns
`currentDelta = currentTime - lastPulseTime` unconditionally before the
first-pulse test, and never clears it on the first pulse or on a bounce. -/
def handleInterrupt (currentTime : Nat) (s : MainState) : MainState :=
  let currentDelta := usub32 currentTime s.lastPulseTime
  if s.firstPulseOccurred ∧ debounceTime < currentDelta then
    { s with currentDelta := currentDelta, lastPulseTime := currentTime }
  else if s.firstPulseOccurred = false then
    { lastPulseTime := currentTime, firstPulseOccurred := true,
      currentDelta := currentDelta }
  else
    { s with currentDelta := currentDelta }

/-- `handleTimer` from src/src/main.cpp (lines 253-269): prints and clears a
nonzero `currentDelta`; the printed value is returned as `some`. -/
def handleTimer (s : MainState) : Option Nat × MainState :=
  if s.currentDelta ≠ 0 then
    (some s.currentDelta, { s with currentDelta := 0 })
  else
    (none, s)

/-- The state at boot: `lastPulseTime = 0`, `firstPulseOccurred = false`,
`currentDelta = 0` (initializers of the globals in src/src/main.cpp). -/
def initialState : MainState :=
  { lastPulseTime := 0, firstPulseOccurred := false, currentDelta := 0 }

end MainCpp

namespace SrcArduino

/-- `sendByteValue` from src/src_arduino/gm_arduino.cpp (lines 114-127).  The
start byte and the four little-endian payload bytes are written; the line that
would write the 0x55 end byte is commented out in the source, so only five
bytes are emitted. -/
def sendByteValue (value : Nat) : List Nat :=
  [0xAA,
   value % 256,
   value / 2 ^ 8 % 256,
   value / 2 ^ 16 % 256,
   value / 2 ^ 24 % 256]

end SrcArduino

namespace SerialCom

/-- `isInteger` from src/src_arduino/serial_com.cpp (lines 10-25).  The copies
in src/src/gm_arduino.cpp (lines 107-122) and src/src/main.cpp (lines 56-71)
are character-identical.  A leading minus sign is skipped when the string has
further characters; every remaining character must be a decimal digit. -/
def isInteger (str : List Char) : Bool :=
  let s := if str.head? = some '-' ∧ 1 < str.length then str.tail else str
  s.all fun c => decide ('0' ≤ c ∧ c ≤ '9')

/-- The character scan loop of `validateMessage` (src/src_arduino/serial_com.cpp
lines 50-108), carrying `numberCount` and the current field `temp`.  The
result is `(isValid, numberCount, temp)`; the Boolean is `false` exactly when
the C loop exited through one of its `break` statements.  A carriage return is
skipped wherever it occurs; a digit or minus is appended to the current field;
a comma closes the field, which must be non-empty and pass `isInteger`; any
other character aborts the scan.  (The C field buffer `temp[10]` has no bounds
check; the list model is unbounded.) -/
def validateLoop : List Char → Nat → List Char → Bool × Nat × List Char
  | [], numberCount, temp => (true, numberCount, temp)
  | c :: rest, numberCount, temp =>
    if c = '\x0D' then
      validateLoop rest numberCount temp
    else if ('0' ≤ c ∧ c ≤ '9') ∨ c = '-' then
      validateLoop rest numberCount (temp ++ [c])
    else if c = ',' then
      if temp.length = 0 then (false, numberCount, temp)
      else if isInteger temp then validateLoop rest (numberCount + 1) []
      else (false, numberCount, temp)
    else (false, numberCount, temp)

/-- `validateMessage` from src/src_arduino/serial_com.cpp (lines 36-125), with
identical copies in src/src/gm_arduino.cpp (lines 132-221) and
src/src/main.cpp (lines 81-170): after the scan loop, a pending non-empty
field is closed and checked, and the message is valid when no check failed and
exactly six numbers were counted. -/
def validateMessage (msg : List Char) : Bool :=
  let r := validateLoop msg 0 []
  let isValid := r.1
  let numberCount := r.2.1
  let temp := r.2.2
  if 0 < temp.length then
    if isInteger temp then isValid && (numberCount + 1 == 6)
    else false
  else isValid && (numberCount == 6)

/-- One line written to the host serial port by `receiveMessage`: the raw
message echo (non-debug path), the validated echo (debug path), or the
literal line `invalid`. -/
inductive RxOut where
  | line (msg : List Char)
  | valid (msg : List Char)
  | invalid
deriving DecidableEq, Repr

/-- The accumulation state of `receiveMessage`: the characters stored at
buffer positions `0 .. index - 1` since the last reset, and the position
variable `index` itself. -/
structure RxState where
  buf : List Char
  index : Nat
deriving DecidableEq, Repr

/-- `receiveMessage` from src/src_arduino/serial_com.cpp (lines 136-177), with
identical logic in src/src/gm_arduino.cpp (lines 223-264) and
src/src/main.cpp (lines 172-214).  One received character is processed: a
newline terminates the line (null terminator stored at `index`, the line
reported, buffer reset), a character arriving with `index ≥ maxLength - 1`
discards the buffer and reports the literal `invalid`, and any other character
is stored at `index`, which is then incremented.  The third component lists
the buffer positions written by this call, for the bounds-safety claims. -/
def receiveMessage (receivedChar : Char) (s : RxState) (maxLength : Nat)
    (debug : Bool) : RxState × Option RxOut × List Nat :=
  if receivedChar = '\n' then
    let out :=
      if debug = false then RxOut.line s.buf
      else if validateMessage s.buf then RxOut.valid s.buf
      else RxOut.invalid
    (⟨[], 0⟩, some out, [s.index])
  else if maxLength - 1 ≤ s.index then
    (⟨[], 0⟩, some RxOut.invalid, [])
  else
    (⟨s.buf ++ [receivedChar], s.index + 1⟩, none, [s.index])

/-- Iterated `receiveMessage` over a character stream: final state, emitted
lines in order, and all buffer positions written. -/
def receiveRun (cs : List Char) (s : RxState) (maxLength : Nat) (debug : Bool) :
    RxState × List RxOut × List Nat :=
  match cs with
  | [] => (s, [], [])
  | c :: rest =>
    let step := receiveMessage c s maxLength debug
    let r := receiveRun rest step.1 maxLength debug
    (r.1, step.2.1.toList ++ r.2.1, step.2.2 ++ r.2.2)

/-- A character removed by `String::trim` of the Arduino core (`isspace`). -/
def isSpaceChar (c : Char) : Bool :=
  decide (c = ' ' ∨ c = '\t' ∨ c = '\n' ∨ c = '\x0B' ∨ c = '\x0C' ∨ c = '\x0D')

/-- `command.trim()`: surrounding whitespace and control characters removed
from both ends. -/
def trim (s : List Char) : List Char :=
  ((s.dropWhile isSpaceChar).reverse.dropWhile isSpaceChar).reverse

/-- The effect of `sendMessage` (src/src_arduino/serial_com.cpp lines 187-232,
identical flag logic in src/src/gm_arduino.cpp lines 266-312) on the
`measurementInProgress` flag.  The command is trimmed and, when non-empty,
relayed verbatim to the downstream serial peer (the relay itself carries no
state); then the exact token `s0` clears the flag, the exact token `s1` sets
it, and `info` only prints the device identifier. -/
def sendMessage (command : List Char) (measurementInProgress : Bool) : Bool :=
  let command := trim command
  let flag := if command = "s0".toList then false else measurementInProgress
  let flag := if command = "s1".toList then true else flag
  flag

end SerialCom

namespace GyroMain

/-- `FREQUENCY_STABLE_TIMEOUT_MS` from src/Arduino-Gyroscope/src/main.cpp. -/
def FREQUENCY_STABLE_TIMEOUT_MS : Nat := 2000

/-- `FREQUENCY_CHANGE_THRESHOLD` from src/Arduino-Gyroscope/src/main.cpp: the
literal `0.05f`, modelled as the exact rational `5 / 100` (all `float`
frequency arithmetic of this variant is modelled over `ℚ`). -/
def FREQUENCY_CHANGE_THRESHOLD : ℚ := 5 / 100

/-- The frequency-tracker state of src/Arduino-Gyroscope/src/main.cpp:
`currentFrequency`, `lastFrequency` (both `float`, modelled as `ℚ`) and
`lastFrequencyChangeMs` (`uint32_t` milliseconds). -/
structure FreqState where
  currentFrequency : ℚ
  lastFrequency : ℚ
  lastFrequencyChangeMs : Nat
deriving DecidableEq, Repr

/-- The interrupt-data block of `loop` (src/Arduino-Gyroscope/src/main.cpp
lines 692-716): when the queue yields a delta (`edge = some d`) and the delta
is positive, `newFrequency = 1000000 / d` is computed; a change of more than
`FREQUENCY_CHANGE_THRESHOLD` against `lastFrequency` resets the change
timestamp to `now` (`millis()`) and records `newFrequency` as `lastFrequency`;
in every case with `d > 0` the new frequency becomes `currentFrequency`.
A delta of zero is rejected by the guard and nothing is computed. -/
def processEdge (edge : Option Nat) (now : Nat) (s : FreqState) : FreqState :=
  match edge with
  | none => s
  | some interruptTimeDelta =>
    if 0 < interruptTimeDelta then
      let newFrequency : ℚ := 1000000 / (interruptTimeDelta : ℚ)
      let s1 :=
        if FREQUENCY_CHANGE_THRESHOLD < |newFrequency - s.lastFrequency| then
          { s with lastFrequencyChangeMs := now, lastFrequency := newFrequency }
        else s
      { s1 with currentFrequency := newFrequency }
    else s

/-- The frequency-constancy block of `loop` (src/Arduino-Gyroscope/src/main.cpp
lines 718-735): when the current frequency is positive and more than
`FREQUENCY_STABLE_TIMEOUT_MS` milliseconds have elapsed since the last
significant change (unsigned 32-bit difference of `millis()` values), both
`currentFrequency` and `lastFrequency` are forced to zero. -/
def stableCheck (now : Nat) (s : FreqState) : FreqState :=
  if 0 < s.currentFrequency then
    let timeSinceLastChange := usub32 now s.lastFrequencyChangeMs
    if FREQUENCY_STABLE_TIMEOUT_MS < timeSinceLastChange then
      { s with currentFrequency := 0, lastFrequency := 0 }
    else s
  else s

/-- One tick of the tracker: the two consecutive blocks of `loop`, with the
same `millis()` reading `now` for both. -/
def loopTick (edge : Option Nat) (now : Nat) (s : FreqState) : FreqState :=
  stableCheck now (processEdge edge now s)

end GyroMain

/-- The decoding step stated by the round-trip property: strip the first and
the last byte of the frame and reinterpret the remaining four bytes as one
little-endian 32-bit value (any other remaining length yields 0). -/
def decodeFrame (frame : List Nat) : Nat :=
  match (frame.drop 1).dropLast with
  | [b0, b1, b2, b3] => b0 + 2 ^ 8 * b1 + 2 ^ 16 * b2 + 2 ^ 24 * b3
  | _ => 0

/-- The binary frame of src/src/gm_arduino.cpp round-trips: for every 32-bit
value the frame is `0xAA`, four little-endian payload bytes, `0x55`, and
decoding recovers the value. -/
theorem sendByteValue_roundTrip (v : Nat) (hv : v < 2 ^ 32) :
    decodeFrame (GmArduino.sendByteValue v) = v := by
  simp only [GmArduino.sendByteValue, decodeFrame, List.drop, List.dropLast]
  omega

namespace SerialCom

/-- Splitting the scan loop at an append: if the prefix scan exits through a
`break` the suffix is never looked at, otherwise the suffix scan continues
from the carried count and field. -/
theorem validateLoop_append (xs ys : List Char) (numberCount : Nat)
    (temp : List Char) :
    validateLoop (xs ++ ys) numberCount temp =
      (let r := validateLoop xs numberCount temp
       if r.1 then validateLoop ys r.2.1 r.2.2 else r) := by
  induction xs generalizing numberCount temp with
  | nil => simp [validateLoop]
  | cons c rest ih =>
    simp only [List.cons_append, validateLoop]
    split
    · exact ih ..
    · split
      · exact ih ..
      · split
        · split
          · simp
          · split
            · exact ih ..
            · simp
        · simp

/-- A scan that exits through a `break` makes the whole message invalid:
the final field check cannot turn `isValid` back on. -/
theorem validateMessage_eq_false_of_break (msg : List Char)
    (h : (validateLoop msg 0 []).1 = false) :
    validateMessage msg = false := by
  unfold validateMessage
  rcases hr : validateLoop msg 0 [] with ⟨b, n, temp⟩
  rw [hr] at h
  subst h
  dsimp only
  split
  · split <;> simp
  · simp

/-- A carriage return appended at the end of the message is skipped by the
scan loop without any effect on its result. -/
theorem validateLoop_append_cr (xs : List Char) (numberCount : Nat)
    (temp : List Char) :
    validateLoop (xs ++ ['\x0D']) numberCount temp =
      validateLoop xs numberCount temp := by
  rw [validateLoop_append]
  rcases h : validateLoop xs numberCount temp with ⟨b, n, t⟩
  cases b <;> simp [validateLoop]

/-- A comma arriving while the current field is still empty makes the scan
break with `isValid = false`, whatever follows. -/
theorem validateLoop_comma_empty (ys : List Char) (numberCount : Nat) :
    (validateLoop (',' :: ys) numberCount []).1 = false := by
  simp [validateLoop]

/-- Specialization of `validateLoop_append`: a prefix scan that already broke
decides the whole scan. -/
theorem validateLoop_append_of_false {xs : List Char} {numberCount : Nat}
    {temp : List Char} (ys : List Char)
    (h : (validateLoop xs numberCount temp).1 = false) :
    validateLoop (xs ++ ys) numberCount temp =
      validateLoop xs numberCount temp := by
  rw [validateLoop_append]
  rcases hx : validateLoop xs numberCount temp with ⟨b, n, t⟩
  rw [hx] at h
  simp at h
  subst h
  simp

/-- Specialization of `validateLoop_append`: a prefix scan that ran through
hands its count and pending field to the suffix scan. -/
theorem validateLoop_append_of_true {xs : List Char} {numberCount n : Nat}
    {temp t : List Char} (ys : List Char)
    (h : validateLoop xs numberCount temp = (true, n, t)) :
    validateLoop (xs ++ ys) numberCount temp = validateLoop ys n t := by
  rw [validateLoop_append, h]
  simp

/-- Two consecutive commas anywhere make the scan break: the second comma
always arrives on an empty field. -/
theorem validateLoop_double_comma (xs ys : List Char) (numberCount : Nat)
    (temp : List Char) :
    (validateLoop (xs ++ ',' :: ',' :: ys) numberCount temp).1 = false := by
  rcases h : validateLoop xs numberCount temp with ⟨b, n, t⟩
  cases b
  · rw [validateLoop_append_of_false _ (by rw [h]), h]
  · rw [validateLoop_append_of_true _ h]
    simp [validateLoop]
    split
    · simp
    · split <;> simp

/-- A character that is not a digit, not a minus sign, not a comma and not a
carriage return makes the scan break wherever it occurs. -/
theorem validateLoop_bad_char (xs ys : List Char) (c : Char)
    (h1 : ¬ ('0' ≤ c ∧ c ≤ '9')) (h2 : c ≠ '-') (h3 : c ≠ ',')
    (h4 : c ≠ '\x0D') (numberCount : Nat) (temp : List Char) :
    (validateLoop (xs ++ c :: ys) numberCount temp).1 = false := by
  rcases h : validateLoop xs numberCount temp with ⟨b, n, t⟩
  cases b
  · rw [validateLoop_append_of_false _ (by rw [h]), h]
  · rw [validateLoop_append_of_true _ h]
    simp only [validateLoop]
    rw [if_neg h4, if_neg (not_or.mpr ⟨h1, h2⟩), if_neg h3]

/-- A digit or minus character is never the carriage return. -/
theorem digit_or_minus_ne_cr {a : Char}
    (h : ('0' ≤ a ∧ a ≤ '9') ∨ a = '-') : a ≠ '\x0D' := by
  rintro rfl
  rcases h with ⟨ha, _⟩ | ha
  · exact absurd ha (by decide)
  · exact absurd ha (by decide)

/-- Scanning a run of digit/minus characters only appends them to the
pending field. -/
theorem validateLoop_field (f rest : List Char) (numberCount : Nat)
    (temp : List Char)
    (hfc : ∀ a ∈ f, ('0' ≤ a ∧ a ≤ '9') ∨ a = '-') :
    validateLoop (f ++ rest) numberCount temp =
      validateLoop rest numberCount (temp ++ f) := by
  induction f generalizing temp with
  | nil => simp
  | cons a f2 ih =>
    have ha := hfc a (List.mem_cons_self a f2)
    simp only [List.cons_append, validateLoop, List.append_eq]
    rw [if_neg (digit_or_minus_ne_cr ha), if_pos ha,
      ih (temp ++ [a]) (fun b hb => hfc b (List.mem_cons_of_mem a hb)),
      List.append_assoc]
    rfl

/-- A whole line that is one run of digit/minus characters scans through,
leaving it as the pending field. -/
theorem validateLoop_of_field (f : List Char) (numberCount : Nat)
    (hfc : ∀ a ∈ f, ('0' ≤ a ∧ a ≤ '9') ∨ a = '-') :
    validateLoop f numberCount [] = (true, numberCount, f) := by
  have h2 := validateLoop_field f [] numberCount [] hfc
  rw [List.append_nil] at h2
  rw [h2]
  simp [validateLoop]

/-- After a comma the scan either broke (empty or non-integer pending field)
or continues with the field counted and cleared. -/
theorem validateLoop_comma_step (rest : List Char) (numberCount : Nat)
    (t : List Char) :
    (validateLoop (',' :: rest) numberCount t).1 = false ∨
      validateLoop (',' :: rest) numberCount t =
        validateLoop rest (numberCount + 1) [] := by
  by_cases ht : t = []
  · left
    simp [validateLoop, ht]
  · by_cases hi : isInteger t = true
    · right
      simp [validateLoop, ht, hi]
    · left
      simp [validateLoop, ht, hi]

/-- A non-empty digit/minus field that fails `isInteger`, closed by a comma,
breaks the scan wherever the comma arrives. -/
theorem validateLoop_failing_field_comma (f ys : List Char)
    (numberCount : Nat) (hf0 : f ≠ [])
    (hfc : ∀ a ∈ f, ('0' ≤ a ∧ a ≤ '9') ∨ a = '-')
    (hfi : isInteger f = false) :
    (validateLoop (f ++ ',' :: ys) numberCount []).1 = false := by
  rw [validateLoop_field f (',' :: ys) numberCount [] hfc]
  simp [validateLoop, hf0, hfi]

/-- A scan that runs through with a pending non-empty field failing
`isInteger` makes the whole message invalid through the final field check. -/
theorem validateMessage_eq_false_of_pending (msg : List Char) (n : Nat)
    (temp : List Char) (h : validateLoop msg 0 [] = (true, n, temp))
    (h0 : temp ≠ []) (hi : isInteger temp = false) :
    validateMessage msg = false := by
  unfold validateMessage
  rw [h]
  dsimp only
  rw [if_pos (List.length_pos.mpr h0), if_neg (by simp [hi])]

/-- Processing a newline always resets the accumulator, whatever was
buffered. -/
theorem receiveMessage_newline (s : RxState) (maxLength : Nat) (debug : Bool) :
    (receiveMessage '\n' s maxLength debug).1 = ⟨[], 0⟩ := by
  simp [receiveMessage]

/-- Splitting `receiveRun` at an append: the suffix run continues from the
final state of the prefix run, and outputs and write positions concatenate. -/
theorem receiveRun_append (xs ys : List Char) (s : RxState) (maxLength : Nat)
    (debug : Bool) :
    receiveRun (xs ++ ys) s maxLength debug =
      ((receiveRun ys (receiveRun xs s maxLength debug).1 maxLength debug).1,
       (receiveRun xs s maxLength debug).2.1 ++
         (receiveRun ys (receiveRun xs s maxLength debug).1 maxLength
           debug).2.1,
       (receiveRun xs s maxLength debug).2.2 ++
         (receiveRun ys (receiveRun xs s maxLength debug).1 maxLength
           debug).2.2) := by
  induction xs generalizing s with
  | nil => simp [receiveRun]
  | cons c rest ih =>
    simp only [List.cons_append, receiveRun]
    simp only [List.append_eq, ih]
    simp [List.append_assoc]

/-- Any stream of `L.length` non-newline characters arriving with
`maxLength ≤ index + L.length` (and `index` within its invariant bound)
overflows the accumulator at some point, emitting the literal `invalid`. -/
theorem receiveRun_overflow_invalid (maxLength : Nat) (debug : Bool)
    (hm : 1 ≤ maxLength) (L : List Char) (s : RxState) (hnl : '\n' ∉ L)
    (hlen : maxLength ≤ s.index + L.length) (hidx : s.index ≤ maxLength - 1) :
    RxOut.invalid ∈ (receiveRun L s maxLength debug).2.1 := by
  induction L generalizing s with
  | nil => simp at hlen; omega
  | cons c rest ih =>
    have hc : c ≠ '\n' := fun h => hnl (h ▸ List.mem_cons_self c rest)
    by_cases hov : maxLength - 1 ≤ s.index
    · simp only [receiveRun, receiveMessage, if_neg hc, if_pos hov]
      simp
    · simp only [receiveRun, receiveMessage, if_neg hc, if_neg hov]
      have := ih ⟨s.buf ++ [c], s.index + 1⟩
        (fun h => hnl (List.mem_cons_of_mem c h))
        (by dsimp only; simp at hlen; omega) (by dsimp only; omega)
      simpa using this

/-- One call of `receiveMessage` keeps the position within
`0 ≤ index ≤ maxLength - 1` and only ever stores at positions up to
`maxLength - 1`. -/
theorem receiveMessage_bounds (c : Char) (s : RxState) (maxLength : Nat)
    (debug : Bool) (_hm : 1 ≤ maxLength) (hidx : s.index ≤ maxLength - 1) :
    (receiveMessage c s maxLength debug).1.index ≤ maxLength - 1 ∧
      ∀ p ∈ (receiveMessage c s maxLength debug).2.2, p ≤ maxLength - 1 := by
  unfold receiveMessage
  split
  · refine ⟨by simp, ?_⟩
    intro p hp
    simp at hp
    omega
  · split
    · refine ⟨by simp, ?_⟩
      intro p hp
      simp at hp
    · rename_i hov
      refine ⟨by simp; omega, ?_⟩
      intro p hp
      simp at hp
      omega

/-- Iterating `receiveMessage` preserves the position invariant and keeps all
stores within bounds. -/
theorem receiveRun_bounds (L : List Char) (s : RxState) (maxLength : Nat)
    (debug : Bool) (hm : 1 ≤ maxLength) (hidx : s.index ≤ maxLength - 1) :
    (receiveRun L s maxLength debug).1.index ≤ maxLength - 1 ∧
      ∀ p ∈ (receiveRun L s maxLength debug).2.2, p ≤ maxLength - 1 := by
  induction L generalizing s with
  | nil =>
    refine ⟨by simpa [receiveRun] using hidx, ?_⟩
    intro p hp
    simp [receiveRun] at hp
  | cons c rest ih =>
    have hstep := receiveMessage_bounds c s maxLength debug hm hidx
    have hrest := ih (receiveMessage c s maxLength debug).1 hstep.1
    simp only [receiveRun]
    refine ⟨hrest.1, ?_⟩
    intro p hp
    rw [List.mem_append] at hp
    rcases hp with hp | hp
    · exact hstep.2 p hp
    · exact hrest.2 p hp

end SerialCom

/-- C1 counterexample: at the concrete input `timestamp = 10` over baseline 0
(dead time `DEBOUNCE_TIME = 10`), the delta equals the dead time, so the
claim as stated demands acceptance; src/src/gm_arduino.cpp instead rejects
the edge: `currentDelta` is cleared, `handleTimer` emits nothing, and
`lastPulseTime` keeps its old value. -/
theorem C1_counterexample :
    GmArduino.DEBOUNCE_TIME ≤ usub32 10 0 ∧
      (GmArduino.handleInterrupt 10 ⟨0, true, 0⟩).currentDelta = 0 ∧
      (GmArduino.handleInterrupt 10 ⟨0, true, 0⟩).lastPulseTime = 0 ∧
      (GmArduino.handleTimer (GmArduino.handleInterrupt 10 ⟨0, true, 0⟩)).1 =
        none := by
  decide

/-- C1 (amended): for every edge after the first, with
`delta = usub32 timestamp lastPulseTime` (wraparound-safe unsigned
subtraction), the edge is accepted — `delta` stored for emission, emitted by
the next `handleTimer`, and `lastPulseTime` set to the new timestamp — if and
only if `delta` is STRICTLY greater than the dead time; when
`delta ≤ dead_time` nothing is emitted and `lastPulseTime` is unchanged. -/
theorem C1_debounce_step (t : Nat) (s : GmArduino.GmState)
    (hfirst : s.firstPulseOccurred = true) :
    (GmArduino.DEBOUNCE_TIME < usub32 t s.lastPulseTime →
      (GmArduino.handleInterrupt t s).currentDelta = usub32 t s.lastPulseTime ∧
      (GmArduino.handleInterrupt t s).lastPulseTime = t ∧
      (GmArduino.handleTimer (GmArduino.handleInterrupt t s)).1 =
        some (usub32 t s.lastPulseTime)) ∧
    (usub32 t s.lastPulseTime ≤ GmArduino.DEBOUNCE_TIME →
      (GmArduino.handleInterrupt t s).currentDelta = 0 ∧
      (GmArduino.handleInterrupt t s).lastPulseTime = s.lastPulseTime ∧
      (GmArduino.handleTimer (GmArduino.handleInterrupt t s)).1 = none) := by
  have hd : GmArduino.handleInterrupt t s =
      if GmArduino.DEBOUNCE_TIME < usub32 t s.lastPulseTime then
        { s with currentDelta := usub32 t s.lastPulseTime, lastPulseTime := t }
      else { s with currentDelta := 0 } := by
    simp [GmArduino.handleInterrupt, hfirst]
  constructor
  · intro hgt
    rw [hd, if_pos hgt]
    refine ⟨rfl, rfl, ?_⟩
    unfold GmArduino.handleTimer
    rw [if_pos (by dsimp only; omega)]
  · intro hle
    rw [hd, if_neg (by omega)]
    refine ⟨rfl, rfl, ?_⟩
    unfold GmArduino.handleTimer
    rw [if_neg (by dsimp only; omega)]

/-- Witness for C1_debounce_step at timestamp 100 over baseline 0. -/
theorem C1_witness :
    (⟨0, true, 0⟩ : GmArduino.GmState).firstPulseOccurred = true ∧
    GmArduino.DEBOUNCE_TIME < usub32 100 0 ∧
    (GmArduino.handleInterrupt 100 ⟨0, true, 0⟩).lastPulseTime = 100 :=
  ⟨rfl, by decide,
    ((C1_debounce_step 100 ⟨0, true, 0⟩ rfl).1 (by decide)).2.1⟩

/-- C2: evaluation of the src/src/main.cpp pipeline at its failing input.
The very first edge ever, at `micros() = 1000`, sets
`currentDelta = 1000 - 0 = 1000` — a delta computed against the zero
pre-first-edge baseline — and the next `handleTimer` call emits it,
contradicting the claim that the first edge only seeds the baseline and
never yields an emitted interval. -/
theorem C2_first_edge_emits :
    (MainCpp.handleInterrupt 1000 MainCpp.initialState).currentDelta = 1000 ∧
    (MainCpp.handleInterrupt 1000 MainCpp.initialState).firstPulseOccurred =
      true ∧
    (MainCpp.handleTimer
      (MainCpp.handleInterrupt 1000 MainCpp.initialState)).1 = some 1000 := by
  decide

/-- C3: evaluation at the failing input `0xFFFFFFFF`.  The
src/src_arduino/gm_arduino.cpp `sendByteValue` emits only five bytes — the
0x55 end-byte write is commented out, against its own doc comment — so the
strip-first-and-last decoding of its output does not recover the value,
while the src/src/gm_arduino.cpp variant emits the documented 6-byte frame
that decodes back exactly. -/
theorem C3_end_byte_missing :
    SrcArduino.sendByteValue 0xFFFFFFFF = [0xAA, 0xFF, 0xFF, 0xFF, 0xFF] ∧
    (SrcArduino.sendByteValue 0xFFFFFFFF).length = 5 ∧
    decodeFrame (SrcArduino.sendByteValue 0xFFFFFFFF) ≠ 0xFFFFFFFF ∧
    GmArduino.sendByteValue 0xFFFFFFFF =
      [0xAA, 0xFF, 0xFF, 0xFF, 0xFF, 0x55] ∧
    decodeFrame (GmArduino.sendByteValue 0xFFFFFFFF) = 0xFFFFFFFF := by
  decide

/-- C4: the five validation vectors of the claim.  The four concrete lines
behave as stated, and appending a trailing carriage return before the newline
never changes the verdict of `validateMessage` (the newline itself is
stripped by `receiveMessage` before validation). -/
theorem C4_validator_vectors :
    SerialCom.validateMessage "1,2,3,4,5,6".toList = true ∧
    SerialCom.validateMessage "-1,2,-3,4,5,6".toList = true ∧
    SerialCom.validateMessage "1,2,3,4,5".toList = false ∧
    SerialCom.validateMessage "1,,3,4,5,6".toList = false ∧
    ∀ msg : List Char,
      SerialCom.validateMessage (msg ++ ['\x0D']) =
        SerialCom.validateMessage msg := by
  refine ⟨by decide, by decide, by decide, by decide, ?_⟩
  intro msg
  unfold SerialCom.validateMessage
  rw [SerialCom.validateLoop_append_cr]

/-- C7 counterexample: the line `1,2,3,4,5,6,` contains an empty final field
produced by a trailing comma, yet `validateMessage` reports it VALID: the
trailing comma closes the sixth field and the empty seventh field after it is
never checked, refuting the claim that every line containing an empty field
is reported invalid. -/
theorem C7_counterexample :
    SerialCom.validateMessage "1,2,3,4,5,6,".toList = true := by
  decide

/-- C7 (amended): an empty field FOLLOWED BY A COMMA always invalidates the
line (two adjacent commas anywhere, or a leading comma), as does any
character that is not a digit, minus, comma or carriage return, and — for
every non-empty run `f` of digit/minus characters failing `isInteger`,
wherever it occurs — a field that fails integer parsing, whether the field
follows a comma or starts the line and whether it is closed by a comma or by
the end of the line; but an empty FINAL field produced by a trailing comma is
not detected: `1,2,3,4,5,6,` is reported valid. -/
theorem C7_empty_field_policy (xs ys f : List Char) (c : Char)
    (h1 : ¬ ('0' ≤ c ∧ c ≤ '9')) (h2 : c ≠ '-') (h3 : c ≠ ',')
    (h4 : c ≠ '\x0D') (hf0 : f ≠ [])
    (hfc : ∀ a ∈ f, ('0' ≤ a ∧ a ≤ '9') ∨ a = '-')
    (hfi : SerialCom.isInteger f = false) :
    SerialCom.validateMessage (xs ++ ',' :: ',' :: ys) = false ∧
    SerialCom.validateMessage (',' :: ys) = false ∧
    SerialCom.validateMessage (xs ++ c :: ys) = false ∧
    SerialCom.validateMessage (xs ++ ',' :: (f ++ ',' :: ys)) = false ∧
    SerialCom.validateMessage (xs ++ ',' :: f) = false ∧
    SerialCom.validateMessage (f ++ ',' :: ys) = false ∧
    SerialCom.validateMessage f = false ∧
    SerialCom.validateMessage "1,2,3,4,5,6,".toList = true ∧
    SerialCom.validateMessage "1,2-,3,4,5,6".toList = false := by
  refine ⟨?_, ?_, ?_, ?_, ?_, ?_, ?_, by decide, by decide⟩
  · exact SerialCom.validateMessage_eq_false_of_break _
      (SerialCom.validateLoop_double_comma xs ys 0 [])
  · exact SerialCom.validateMessage_eq_false_of_break _
      (SerialCom.validateLoop_comma_empty ys 0)
  · exact SerialCom.validateMessage_eq_false_of_break _
      (SerialCom.validateLoop_bad_char xs ys c h1 h2 h3 h4 0 [])
  · rcases h : SerialCom.validateLoop xs 0 [] with ⟨b, n, t⟩
    apply SerialCom.validateMessage_eq_false_of_break
    cases b
    · rw [SerialCom.validateLoop_append_of_false _ (by rw [h]), h]
    · rw [SerialCom.validateLoop_append_of_true _ h]
      rcases SerialCom.validateLoop_comma_step (f ++ ',' :: ys) n t with
        hb | hs
      · exact hb
      · rw [hs]
        exact SerialCom.validateLoop_failing_field_comma f ys (n + 1) hf0
          hfc hfi
  · rcases h : SerialCom.validateLoop xs 0 [] with ⟨b, n, t⟩
    cases b
    · apply SerialCom.validateMessage_eq_false_of_break
      rw [SerialCom.validateLoop_append_of_false _ (by rw [h]), h]
    · rcases SerialCom.validateLoop_comma_step f n t with hb | hs
      · apply SerialCom.validateMessage_eq_false_of_break
        rw [SerialCom.validateLoop_append_of_true _ h]
        exact hb
      · refine SerialCom.validateMessage_eq_false_of_pending _ (n + 1) f
          ?_ hf0 hfi
        rw [SerialCom.validateLoop_append_of_true _ h, hs,
          SerialCom.validateLoop_of_field f (n + 1) hfc]
  · exact SerialCom.validateMessage_eq_false_of_break _
      (SerialCom.validateLoop_failing_field_comma f ys 0 hf0 hfc hfi)
  · exact SerialCom.validateMessage_eq_false_of_pending _ 0 f
      (SerialCom.validateLoop_of_field f 0 hfc) hf0 hfi

/-- Witness for C7_empty_field_policy with the non-grammar character `x` and
the parse-failing field `2-` between commas. -/
theorem C7_witness :
    SerialCom.validateMessage
      ("1".toList ++ ',' :: ("2-".toList ++ ',' :: "3,4,5,6".toList)) =
        false ∧
    SerialCom.validateMessage ("12".toList ++ 'x' :: "34".toList) = false :=
  ⟨(C7_empty_field_policy "1".toList "3,4,5,6".toList "2-".toList 'x'
      (by decide) (by decide) (by decide) (by decide) (by decide) (by decide)
      (by decide)).2.2.2.1,
   (C7_empty_field_policy "12".toList "34".toList "2-".toList 'x'
      (by decide) (by decide) (by decide) (by decide) (by decide) (by decide)
      (by decide)).2.2.1⟩

/-- C8: from any state of the `measurementInProgress` flag, the trimmed token
`s1` puts the machine in RUNNING and `s0` puts it in STOPPED; `s0` while
already STOPPED is a no-op; and any command that trims to neither token
(e.g. `info`) leaves the flag unchanged. -/
theorem C8_measurement_toggle (flag : Bool) :
    SerialCom.sendMessage "s1".toList flag = true ∧
    SerialCom.sendMessage "s0".toList flag = false ∧
    SerialCom.sendMessage "s0".toList false = false ∧
    ∀ cmd : List Char, SerialCom.trim cmd ≠ "s0".toList →
      SerialCom.trim cmd ≠ "s1".toList →
      SerialCom.sendMessage cmd flag = flag := by
  refine ⟨?_, ?_, by decide, ?_⟩
  · cases flag <;> decide
  · cases flag <;> decide
  · intro cmd h0 h1
    have h0a : SerialCom.trim cmd ≠ ['s', '0'] := fun h => h0 (h.trans rfl)
    have h1a : SerialCom.trim cmd ≠ ['s', '1'] := fun h => h1 (h.trans rfl)
    simp [SerialCom.sendMessage, h0a, h1a]

/-- Witness for C8_measurement_toggle: `info` does not change the flag. -/
theorem C8_witness :
    SerialCom.sendMessage "info".toList true = true :=
  (C8_measurement_toggle true).2.2.2 "info".toList (by decide) (by decide)

/-- C9: a line strictly longer than the storable maximum (`maxLength - 1`
characters), fed character-by-character from a fresh accumulator, makes
`receiveMessage` discard the buffered content and report the literal
`invalid`; the terminating newline leaves the accumulator reset
(`index = 0`, empty buffer), so subsequent lines are processed
independently — the failure is never fatal. -/
theorem C9_overflow_reports_invalid (L : List Char) (maxLength : Nat)
    (debug : Bool) (hm : 1 ≤ maxLength) (hnl : '\n' ∉ L)
    (hlen : maxLength ≤ L.length) :
    SerialCom.RxOut.invalid ∈
      (SerialCom.receiveRun (L ++ ['\n']) ⟨[], 0⟩ maxLength debug).2.1 ∧
    (SerialCom.receiveRun (L ++ ['\n']) ⟨[], 0⟩ maxLength debug).1.index = 0 ∧
    (SerialCom.receiveRun (L ++ ['\n']) ⟨[], 0⟩ maxLength debug).1.buf =
      [] := by
  have hmem := SerialCom.receiveRun_overflow_invalid maxLength debug hm L
    ⟨[], 0⟩ hnl (by simpa using hlen) (by simp)
  rw [SerialCom.receiveRun_append]
  dsimp only
  refine ⟨List.mem_append_left _ hmem, ?_, ?_⟩
  · simp [SerialCom.receiveRun, SerialCom.receiveMessage]
  · simp [SerialCom.receiveRun, SerialCom.receiveMessage]

/-- Witness for C9 with `maxLength = 2` and the line `ab`. -/
theorem C9_witness :
    ((1:Nat) ≤ 2 ∧ '\n' ∉ "ab".toList ∧ 2 ≤ "ab".toList.length) ∧
    SerialCom.RxOut.invalid ∈
      (SerialCom.receiveRun ("ab".toList ++ ['\n']) ⟨[], 0⟩ 2 false).2.1 :=
  ⟨⟨by decide, by decide, by decide⟩,
    (C9_overflow_reports_invalid "ab".toList 2 false (by decide) (by decide)
      (by decide)).1⟩

/-- C10: the buffer-position invariant of `receiveMessage`.  Starting from
any position within `0 ≤ index ≤ maxLength - 1`, a single call — and any
sequence of calls — ends with `index ≤ maxLength - 1` again, and every store
into the message buffer (`message[index]`, `message[index++]`, including the
null terminator) targets a position strictly below the `maxLength + 1`-byte
buffer size. -/
theorem C10_index_invariant (c : Char) (s : SerialCom.RxState)
    (maxLength : Nat) (debug : Bool) (hm : 1 ≤ maxLength)
    (hidx : s.index ≤ maxLength - 1) :
    ((SerialCom.receiveMessage c s maxLength debug).1.index ≤ maxLength - 1 ∧
      ∀ p ∈ (SerialCom.receiveMessage c s maxLength debug).2.2,
        p < maxLength + 1) ∧
    ∀ L : List Char,
      (SerialCom.receiveRun L s maxLength debug).1.index ≤ maxLength - 1 ∧
      ∀ p ∈ (SerialCom.receiveRun L s maxLength debug).2.2,
        p < maxLength + 1 := by
  have h1 := SerialCom.receiveMessage_bounds c s maxLength debug hm hidx
  refine ⟨⟨h1.1, fun p hp => ?_⟩, fun L => ?_⟩
  · have := h1.2 p hp
    omega
  · have h2 := SerialCom.receiveRun_bounds L s maxLength debug hm hidx
    refine ⟨h2.1, fun p hp => ?_⟩
    have := h2.2 p hp
    omega

/-- Witness for C10 at `maxLength = 64` from a fresh accumulator. -/
theorem C10_witness :
    ((1:Nat) ≤ 64 ∧ (⟨[], 0⟩ : SerialCom.RxState).index ≤ 63) ∧
    (SerialCom.receiveMessage 'a' ⟨[], 0⟩ 64 false).1.index ≤ 63 :=
  ⟨⟨by decide, by decide⟩,
    (C10_index_invariant 'a' ⟨[], 0⟩ 64 false (by decide) (by decide)).1.1⟩

/-- C5: the stability timeout of the frequency tracker.  Whenever the current
frequency is positive and more than `FREQUENCY_STABLE_TIMEOUT_MS` have
elapsed since the last significant change, the next tick forces both
`currentFrequency` and `lastFrequency` to exactly 0 — also when a new edge
arrives in the same tick, as long as its frequency does not differ from
`lastFrequency` by more than `FREQUENCY_CHANGE_THRESHOLD` (an unchanged
rate), because only a significant change resets the staleness timer. -/
theorem C5_stability_timeout (s : GyroMain.FreqState) (edge : Option Nat)
    (now : Nat) (hpos : 0 < s.currentFrequency)
    (hstale : GyroMain.FREQUENCY_STABLE_TIMEOUT_MS <
      usub32 now s.lastFrequencyChangeMs)
    (hnochange : ∀ d : Nat, edge = some d → 0 < d →
      |1000000 / (d : ℚ) - s.lastFrequency| ≤
        GyroMain.FREQUENCY_CHANGE_THRESHOLD) :
    (GyroMain.loopTick edge now s).currentFrequency = 0 ∧
    (GyroMain.loopTick edge now s).lastFrequency = 0 := by
  unfold GyroMain.loopTick
  have hedge : GyroMain.processEdge edge now s = s ∨
      ∃ d : Nat, 0 < d ∧ GyroMain.processEdge edge now s =
        { s with currentFrequency := 1000000 / (d : ℚ) } := by
    match edge with
    | none => exact Or.inl rfl
    | some d =>
      by_cases hd : 0 < d
      · refine Or.inr ⟨d, hd, ?_⟩
        have hns := hnochange d rfl hd
        simp only [GyroMain.processEdge]
        rw [if_pos hd]
        rw [if_neg (not_lt.mpr hns)]
      · exact Or.inl (by simp [GyroMain.processEdge, hd])
  rcases hedge with h | ⟨d, hd, h⟩
  · rw [h]
    simp only [GyroMain.stableCheck]
    rw [if_pos hpos]
    rw [if_pos hstale]
    exact ⟨rfl, rfl⟩
  · rw [h]
    simp only [GyroMain.stableCheck]
    have hfreq : (0 : ℚ) < 1000000 / (d : ℚ) :=
      div_pos (by norm_num) (by exact_mod_cast hd)
    rw [if_pos hfreq]
    rw [if_pos hstale]
    exact ⟨rfl, rfl⟩

/-- Witness for C5: a tracker at 5 Hz whose last significant change was at
millisecond 0 is zeroed by the tick at millisecond 3000 with no new edge. -/
theorem C5_witness :
    ((0 : ℚ) < 5 ∧ GyroMain.FREQUENCY_STABLE_TIMEOUT_MS < usub32 3000 0) ∧
    (GyroMain.loopTick none 3000 ⟨5, 5, 0⟩).currentFrequency = 0 :=
  ⟨⟨by norm_num, by decide⟩,
    (C5_stability_timeout ⟨5, 5, 0⟩ none 3000 (by norm_num) (by decide)
      (fun d h => nomatch h)).1⟩

/-- C6: for every accepted interval `d > 0` microseconds, the tracker computes
the instantaneous frequency as exactly `1000000 / d` (in the model numeric
type standing for the `float` of the source), and the division is guarded:
a zero interval is rejected by the `interruptTimeDelta > 0` test and the
state is returned untouched, so the division is never reached. -/
theorem C6_instant_frequency (s : GyroMain.FreqState) (now d : Nat)
    (hd : 0 < d) :
    (GyroMain.processEdge (some d) now s).currentFrequency =
      1000000 / (d : ℚ) ∧
    GyroMain.processEdge (some 0) now s = s := by
  refine ⟨?_, by simp [GyroMain.processEdge]⟩
  simp only [GyroMain.processEdge]
  rw [if_pos hd]

/-- Witness for C6: the 4-microsecond interval yields 250000 Hz. -/
theorem C6_witness :
    0 < 4 ∧ (GyroMain.processEdge (some 4) 0 ⟨0, 0, 0⟩).currentFrequency =
      1000000 / (4 : ℚ) :=
  ⟨by decide, (C6_instant_frequency ⟨0, 0, 0⟩ 0 4 (by decide)).1⟩

/-- Witness for the universally quantified carriage-return clause of
C4_validator_vectors, at the one-field line `7`. -/
theorem C4_witness :
    SerialCom.validateMessage ("7".toList ++ ['\x0D']) =
      SerialCom.validateMessage "7".toList :=
  C4_validator_vectors.2.2.2.2 "7".toList
